import Mathlib

/-!
# go-config: the three loaders of `config.go`

The package is a facade over collaborators it does not implement: the file
reader `fromfile.ReadConfig`, the decoders `json.Unmarshal`, `toml.Decode`
and `yaml.Unmarshal`, and the argument parser `arg.Parse`.  Each of them is a
parameter of the embedding.  A collaborator receives the target through a
pointer and may write to it whether or not it succeeds, so it is a function
from its arguments and the target to the target it leaves and the error it
returns.  The target type `T` is arbitrary; taking a pair of the record and
whatever else the collaborator reads or writes (the file system, the process
arguments) for `T` covers a collaborator that is not a function of the record
alone.

Every loader returns an `Outcome`: the target it leaves, the error it returns
and the collaborator invocations it made, in order, each with its arguments.
-/

set_option autoImplicit false

namespace Config

/-! ## Error values -/

/-- An error value as far as this package observes one: the message that
`Error()` gives and the error that `Unwrap()` gives, if any.  `errorString` is
what `errors.New` and `fmt.Errorf` without `%w` build, `wrapError` what
`fmt.Errorf` with one `%w` builds.  The errors of the collaborators are
arbitrary values of this type. -/
inductive GoError where
  | errorString (s : String)
  | wrapError (msg : String) (err : GoError)
  deriving DecidableEq, Repr

namespace GoError

/-- The method `Error()`. -/
def Error : GoError → String
  | errorString s => s
  | wrapError msg _ => msg

/-- The method `Unwrap()`, `none` for an error that wraps nothing. -/
def Unwrap : GoError → Option GoError
  | errorString _ => none
  | wrapError _ err => some err

end GoError

/-- `errors.New(text)`. -/
def errorsNew (text : String) : GoError := GoError.errorString text

/-- `fmt.Errorf("config error: %w", err)`: the message is the format with the
message of `err` in place of the verb, and the result wraps `err`. -/
def errorfConfigError (err : GoError) : GoError :=
  GoError.wrapError ("config error: " ++ err.Error) err

/-- `fmt.Errorf("config string parsing error: unknown/unsupported config
format '%s'", format)`. -/
def errorfUnknownFormat (format : String) : GoError :=
  GoError.errorString
    ("config string parsing error: unknown/unsupported config format '" ++ format ++ "'")

/-- `fmt.Errorf("config string parsing error: %s", err.Error())`: only the
message of `err` is kept, nothing is wrapped. -/
def errorfParsing (err : GoError) : GoError :=
  GoError.errorString ("config string parsing error: " ++ err.Error)

/-! ## Outcomes -/

/-- What a call leaves behind: the target after the call, the returned error
(`none` for `nil`) and the invocations of collaborators, first to last. -/
structure Outcome (T : Type) (C : Type) where
  config : T
  err : Option GoError
  calls : List C
  deriving DecidableEq, Repr

/-! ## LoadFromFile -/

/-- The type of `fromfile.ReadConfig(filePath, config)`. -/
abbrev Reader (T : Type) := String → T → T × Option GoError

/-- The `for _, filePath := range filePaths` loop of `LoadFromFile`: read each
path into the same target, return at the first error. -/
def LoadFromFile.loop {T : Type} (ReadConfig : Reader T) :
    List String → T → Outcome T (String × T)
  | [], config => ⟨config, none, []⟩
  | filePath :: rest, config =>
    match ReadConfig filePath config with
    | (config', some err) => ⟨config', some (errorfConfigError err), [(filePath, config)]⟩
    | (config', none) =>
      let r := LoadFromFile.loop ReadConfig rest config'
      ⟨r.config, r.err, (filePath, config) :: r.calls⟩

/-- `LoadFromFile(config, filePaths...)`. -/
def LoadFromFile {T : Type} (ReadConfig : Reader T) (config : T) (filePaths : List String) :
    Outcome T (String × T) :=
  if filePaths.length = 0 then
    ⟨config, some (errorsNew "config error: file path not provided"), []⟩
  else
    LoadFromFile.loop ReadConfig filePaths config

/-! ## LoadFromString -/

/-- The type of a decoder, `json.Unmarshal([]byte(data), &config)` and the
like: payload and target to the target left and the error. -/
abbrev Decoder (T : Type) := String → T → T × Option GoError

/-- The three decoders `LoadFromString` can call. -/
inductive Lib where
  | jsonUnmarshal
  | tomlDecode
  | yamlUnmarshal
  deriving DecidableEq, Repr

/-- One invocation of a decoder: which one, on which payload and target. -/
structure DecodeCall (T : Type) where
  lib : Lib
  data : String
  config : T
  deriving DecidableEq, Repr

/-- The tail of `LoadFromString` after the `switch`: wrap the error of the
decoder, if there is one. -/
def LoadFromString.finish {T : Type} (lib : Lib) (data : String) (config : T)
    (res : T × Option GoError) : Outcome T (DecodeCall T) :=
  match res with
  | (config', some err) => ⟨config', some (errorfParsing err), [⟨lib, data, config⟩]⟩
  | (config', none) => ⟨config', none, [⟨lib, data, config⟩]⟩

/-- `LoadFromString(config, data, format)`.  `len(data)` is the length in
bytes.  Each decoder is handed `&config`, the address of the pointer to the
target, which it follows to the target; the `switch` compares `format` with
the three literals by string equality, first to last. -/
def LoadFromString {T : Type} (jsonUnmarshal tomlDecode yamlUnmarshal : Decoder T)
    (config : T) (data format : String) : Outcome T (DecodeCall T) :=
  if data.utf8ByteSize = 0 then
    ⟨config, some (errorsNew "config error: config is empty"), []⟩
  else
    match format with
    | "json" => LoadFromString.finish Lib.jsonUnmarshal data config (jsonUnmarshal data config)
    | "toml" => LoadFromString.finish Lib.tomlDecode data config (tomlDecode data config)
    | "yaml" => LoadFromString.finish Lib.yamlUnmarshal data config (yamlUnmarshal data config)
    | _ => ⟨config, some (errorfUnknownFormat format), []⟩

/-! ## LoadFromCLIFlagsOrENV -/

/-- `LoadFromCLIFlagsOrENV(config)`: `return arg.Parse(config)`. -/
def LoadFromCLIFlagsOrENV {T : Type} (Parse : T → T × Option GoError) (config : T) :
    Outcome T T :=
  match Parse config with
  | (config', err) => ⟨config', err, [config]⟩

/-! ## Sequential reading, stated without the loop

The claims about `LoadFromFile` speak of the reads of a list of paths one
after the other.  These three functions say what that means, on their own:
whether every read succeeds, the target the reads leave, and the invocations
they consist of. -/

/-- Every read of `paths`, each from the target the one before left, returns
`nil`. -/
def readsSucceed {T : Type} (ReadConfig : Reader T) : List String → T → Bool
  | [], _ => true
  | filePath :: rest, config =>
    (ReadConfig filePath config).2.isNone &&
      readsSucceed ReadConfig rest (ReadConfig filePath config).1

/-- The target after reading `paths` one after the other. -/
def afterReads {T : Type} (ReadConfig : Reader T) (paths : List String) (config : T) : T :=
  paths.foldl (fun c filePath => (ReadConfig filePath c).1) config

/-- The invocations that reading `paths` one after the other consists of: each
path with the target the read before it left. -/
def readCalls {T : Type} (ReadConfig : Reader T) : List String → T → List (String × T)
  | [], _ => []
  | filePath :: rest, config =>
    (filePath, config) :: readCalls ReadConfig rest (ReadConfig filePath config).1

/-! ## The test fixtures of `TestLoadFromFile` -/

/-- The struct `fileConfig` of the test. -/
structure fileConfig where
  AppName : String
  AppPort : Int
  deriving DecidableEq, Repr

/-- A file reader for the files of the test: `config_test_valid.env` holds
`APP_NAME=testing-service` and `APP_PORT=9000`, any other path does not exist
and the read of it leaves the target alone. -/
def testReadConfig : Reader fileConfig := fun filePath config =>
  if filePath = "config_test_valid.env" then
    (⟨"testing-service", 9000⟩, none)
  else
    (config, some (GoError.errorString ("open " ++ filePath ++ ": no such file or directory")))

/-! ## Fields of the target and payloads

`LoadFromString` never looks at a field of the target or inside the payload:
what a payload does to the fields is decided by the decoder it calls, which is
a library, and so is what an encoder writes for a value.  The notions below
state what the specification expects of these libraries, so that what
`LoadFromString` adds to them can be stated. -/

/-- Modelled from the spec: the effect of a successful decode on the fields of
the target, which is the behaviour of the JSON, TOML and YAML libraries and not
code of this package ("Successful decode fully populates all fields present in
the payload; fields absent from the payload retain the target's pre-call
values").  `get` reads field `k` of a target and `fieldsOf data k` is the value
the payload gives for field `k`, `none` when the payload has no such field. -/
def FieldFrame {T K V : Type} (get : T → K → V) (fieldsOf : String → K → Option V)
    (decode : Decoder T) : Prop :=
  ∀ (data : String) (config : T), (decode data config).2 = none →
    ∀ k, get (decode data config).1 k = (fieldsOf data k).getD (get config k)

/-- Modelled from the spec: the round trip of the encoder and the decoder of
one format, which are libraries and not code of this package ("encoding a
target structure's field values into a JSON/TOML/YAML string with matching
field tags, then [...] decoding that string into a fresh zero-valued target of
the same shape, reproduces the original field values exactly"): the decoder
accepts the encoding of every value and leaves that value in the fresh target
`zero`. -/
def LibraryRoundTrip {T : Type} (encode : T → String) (decode : Decoder T) (zero : T) :
    Prop :=
  ∀ v, decode (encode v) zero = (v, none)

/-- The round trip through `LoadFromString` for one value `v`: loading the
encoding of `v` into the fresh target `zero` returns `nil` and leaves `v`. -/
def RoundTrip {T : Type} (json toml yaml : Decoder T) (encode : T → String) (zero v : T)
    (format : String) : Prop :=
  (LoadFromString json toml yaml zero (encode v) format).err = none ∧
    (LoadFromString json toml yaml zero (encode v) format).config = v

/-! ## The test fixtures of `TestLoadFromString` -/

/-- The struct `Company` of the test. -/
structure Company where
  ID : Int
  Name : String
  deriving DecidableEq, Repr

/-- The struct `stringData` of the test. -/
structure stringData where
  UserID : Int
  ID : Int
  Title : String
  Completed : Bool
  Company : Company
  deriving DecidableEq, Repr

/-- The keys of `stringData`, those of the nested `company` included. -/
inductive Key where
  | userId
  | id
  | title
  | completed
  | companyId
  | companyName
  deriving DecidableEq, Repr

/-- A value of a field of `stringData`. -/
inductive Value where
  | int (i : Int)
  | str (s : String)
  | bool (b : Bool)
  deriving DecidableEq, Repr

/-- The field of `stringData` that a key names. -/
def stringData.get (c : stringData) : Key → Value
  | Key.userId => Value.int c.UserID
  | Key.id => Value.int c.ID
  | Key.title => Value.str c.Title
  | Key.completed => Value.bool c.Completed
  | Key.companyId => Value.int c.Company.ID
  | Key.companyName => Value.str c.Company.Name

/-- The payload `stringYAML` of the test. -/
def stringYAML : String :=
  " \nid: 1 \ncompleted: false\ncompany:\n  name: YAML Transform Inc\n"

/-- The fields that `stringYAML` gives; no other document is modelled. -/
def yamlFieldsOf (data : String) : Key → Option Value
  | Key.id => if data = stringYAML then some (Value.int 1) else none
  | Key.completed => if data = stringYAML then some (Value.bool false) else none
  | Key.companyName =>
    if data = stringYAML then some (Value.str "YAML Transform Inc") else none
  | _ => none

/-- The YAML decoder on the document of the test: `stringYAML` sets `ID`,
`Completed` and `Company.Name` and nothing else; any other document is
reported as an error here and leaves the target alone. -/
def testYamlUnmarshal : Decoder stringData := fun data config =>
  if data = stringYAML then
    (⟨config.UserID, 1, config.Title, false, ⟨config.Company.ID, "YAML Transform Inc"⟩⟩, none)
  else
    (config, some (GoError.errorString "yaml: document not modelled"))

/-- A target without fields, the Go type `struct{}`. -/
structure NoFields where
  deriving DecidableEq, Repr

/-- The encoding of a target without fields in each format: the JSON object
and the YAML mapping without keys, and the TOML document without keys, which
is the empty string. -/
def encodeNoFields : Lib → NoFields → String
  | Lib.jsonUnmarshal, _ => "\x7b\x7d"
  | Lib.tomlDecode, _ => ""
  | Lib.yamlUnmarshal, _ => "\x7b\x7d\n"

/-- The decoders on a target without fields, on the encodings above: each
accepts the document without keys of its format and sets nothing; any other
document is reported as an error here. -/
def decodeNoFields (lib : Lib) : Decoder NoFields := fun data config =>
  if data = encodeNoFields lib config then (config, none)
  else (config, some (GoError.errorString "document not modelled"))

/-- The struct `stringData` of the test cut down to its field `Completed`,
under the key `completed` in each format. -/
structure completedData where
  Completed : Bool
  deriving DecidableEq, Repr

/-- The encoding of a `completedData` in each format: the JSON object, the
TOML document and the YAML mapping with the one key `completed`. -/
def encodeCompleted : Lib → completedData → String
  | Lib.jsonUnmarshal, ⟨true⟩ => "\x7b\"completed\":true\x7d"
  | Lib.jsonUnmarshal, ⟨false⟩ => "\x7b\"completed\":false\x7d"
  | Lib.tomlDecode, ⟨true⟩ => "completed = true\n"
  | Lib.tomlDecode, ⟨false⟩ => "completed = false\n"
  | Lib.yamlUnmarshal, ⟨true⟩ => "completed: true\n"
  | Lib.yamlUnmarshal, ⟨false⟩ => "completed: false\n"

/-- The decoders on a `completedData`, on the encodings above: each sets
`Completed` to the value its document gives; any other document is reported
as an error here and leaves the target alone. -/
def decodeCompleted (lib : Lib) : Decoder completedData := fun data config =>
  if data = encodeCompleted lib ⟨true⟩ then (⟨true⟩, none)
  else if data = encodeCompleted lib ⟨false⟩ then (⟨false⟩, none)
  else (config, some (GoError.errorString "document not modelled"))

/-! ## Basic facts -/

/-- `len(data) == 0` holds of the empty string only. -/
theorem utf8ByteSize_eq_zero_iff (s : String) : s.utf8ByteSize = 0 ↔ s = "" := by
  cases s with
  | mk cs =>
    cases cs with
    | nil => simp [String.utf8ByteSize, String.utf8ByteSize.go]
    | cons c cs =>
      have hc := Char.utf8Size_pos c
      constructor
      · intro h
        simp only [String.utf8ByteSize, String.utf8ByteSize.go] at h
        omega
      · intro h
        exact absurd (congrArg String.data h) (by simp)

theorem LoadFromString_of_empty {T : Type} (json toml yaml : Decoder T) (config : T)
    (format : String) :
    LoadFromString json toml yaml config "" format =
      ⟨config, some (errorsNew "config error: config is empty"), []⟩ := by
  simp [LoadFromString, String.utf8ByteSize, String.utf8ByteSize.go]

theorem LoadFromString_json {T : Type} (json toml yaml : Decoder T) (config : T)
    (data : String) (h : data ≠ "") :
    LoadFromString json toml yaml config data "json" =
      LoadFromString.finish Lib.jsonUnmarshal data config (json data config) := by
  have h0 : ¬ data.utf8ByteSize = 0 := fun h0 => h ((utf8ByteSize_eq_zero_iff data).1 h0)
  simp [LoadFromString, h0]

theorem LoadFromString_toml {T : Type} (json toml yaml : Decoder T) (config : T)
    (data : String) (h : data ≠ "") :
    LoadFromString json toml yaml config data "toml" =
      LoadFromString.finish Lib.tomlDecode data config (toml data config) := by
  have h0 : ¬ data.utf8ByteSize = 0 := fun h0 => h ((utf8ByteSize_eq_zero_iff data).1 h0)
  simp [LoadFromString, h0]

theorem LoadFromString_yaml {T : Type} (json toml yaml : Decoder T) (config : T)
    (data : String) (h : data ≠ "") :
    LoadFromString json toml yaml config data "yaml" =
      LoadFromString.finish Lib.yamlUnmarshal data config (yaml data config) := by
  have h0 : ¬ data.utf8ByteSize = 0 := fun h0 => h ((utf8ByteSize_eq_zero_iff data).1 h0)
  simp [LoadFromString, h0]

theorem LoadFromString_unknown {T : Type} (json toml yaml : Decoder T) (config : T)
    (data format : String) (h : data ≠ "")
    (hj : format ≠ "json") (ht : format ≠ "toml") (hy : format ≠ "yaml") :
    LoadFromString json toml yaml config data format =
      ⟨config, some (errorfUnknownFormat format), []⟩ := by
  have h0 : ¬ data.utf8ByteSize = 0 := fun h0 => h ((utf8ByteSize_eq_zero_iff data).1 h0)
  simp only [LoadFromString, h0, if_false]

theorem finish_config {T : Type} (lib : Lib) (data : String) (config : T)
    (res : T × Option GoError) :
    (LoadFromString.finish lib data config res).config = res.1 := by
  rcases res with ⟨c, _ | e⟩ <;> rfl

theorem finish_calls {T : Type} (lib : Lib) (data : String) (config : T)
    (res : T × Option GoError) :
    (LoadFromString.finish lib data config res).calls = [⟨lib, data, config⟩] := by
  rcases res with ⟨c, _ | e⟩ <;> rfl

theorem finish_err {T : Type} (lib : Lib) (data : String) (config : T)
    (res : T × Option GoError) :
    (LoadFromString.finish lib data config res).err = res.2.map errorfParsing := by
  rcases res with ⟨c, _ | e⟩ <;> rfl

theorem afterReads_cons {T : Type} (R : Reader T) (p : String) (ps : List String) (t : T) :
    afterReads R (p :: ps) t = afterReads R ps (R p t).1 := rfl

theorem afterReads_append {T : Type} (R : Reader T) (ps qs : List String) (t : T) :
    afterReads R (ps ++ qs) t = afterReads R qs (afterReads R ps t) := by
  simp [afterReads, List.foldl_append]

theorem readCalls_append {T : Type} (R : Reader T) (ps qs : List String) (t : T) :
    readCalls R (ps ++ qs) t = readCalls R ps t ++ readCalls R qs (afterReads R ps t) := by
  induction ps generalizing t with
  | nil => rfl
  | cons p ps ih => simp [readCalls, afterReads_cons, ih]

theorem readCalls_map_fst {T : Type} (R : Reader T) (ps : List String) (t : T) :
    (readCalls R ps t).map Prod.fst = ps := by
  induction ps generalizing t with
  | nil => rfl
  | cons p ps ih => simp [readCalls, ih]

theorem loop_cons_ok {T : Type} (R : Reader T) (p : String) (ps : List String) (t : T)
    (h : (R p t).2 = none) :
    LoadFromFile.loop R (p :: ps) t =
      ⟨(LoadFromFile.loop R ps (R p t).1).config, (LoadFromFile.loop R ps (R p t).1).err,
        (p, t) :: (LoadFromFile.loop R ps (R p t).1).calls⟩ := by
  rcases hr : R p t with ⟨c, _ | e⟩
  · simp [LoadFromFile.loop, hr]
  · rw [hr] at h; cases h

theorem loop_cons_err {T : Type} (R : Reader T) (p : String) (ps : List String) (t : T)
    (e : GoError) (h : (R p t).2 = some e) :
    LoadFromFile.loop R (p :: ps) t = ⟨(R p t).1, some (errorfConfigError e), [(p, t)]⟩ := by
  rcases hr : R p t with ⟨c, _ | e'⟩
  · rw [hr] at h; cases h
  · rw [hr] at h; cases h; simp [LoadFromFile.loop, hr]

/-- When the reads of `pre` all succeed, the loop over `pre ++ rest` is the
loop over `rest` from the target they leave, after their invocations. -/
theorem loop_append_of_succeed {T : Type} (R : Reader T) (pre rest : List String) (t : T)
    (h : readsSucceed R pre t = true) :
    LoadFromFile.loop R (pre ++ rest) t =
      ⟨(LoadFromFile.loop R rest (afterReads R pre t)).config,
        (LoadFromFile.loop R rest (afterReads R pre t)).err,
        readCalls R pre t ++ (LoadFromFile.loop R rest (afterReads R pre t)).calls⟩ := by
  induction pre generalizing t with
  | nil => rfl
  | cons p ps ih =>
    simp only [readsSucceed, Bool.and_eq_true, Option.isNone_iff_eq_none] at h
    rw [List.cons_append, loop_cons_ok R p _ t h.1, ih _ h.2]
    simp [afterReads_cons, readCalls]

theorem loop_of_succeed {T : Type} (R : Reader T) (ps : List String) (t : T)
    (h : readsSucceed R ps t = true) :
    LoadFromFile.loop R ps t = ⟨afterReads R ps t, none, readCalls R ps t⟩ := by
  have := loop_append_of_succeed R ps [] t h
  simpa [LoadFromFile.loop] using this

theorem loop_err_eq_none_iff {T : Type} (R : Reader T) (ps : List String) (t : T) :
    (LoadFromFile.loop R ps t).err = none ↔ readsSucceed R ps t = true := by
  induction ps generalizing t with
  | nil => simp [LoadFromFile.loop, readsSucceed]
  | cons p ps ih =>
    rcases hr : (R p t).2 with _ | e
    · rw [loop_cons_ok R p ps t hr]
      simp [readsSucceed, hr, ih]
    · rw [loop_cons_err R p ps t e hr]
      simp [readsSucceed, hr]

/-- A list of paths whose reads do not all succeed has a first failing path. -/
theorem exists_first_failure {T : Type} (R : Reader T) (ps : List String) (t : T)
    (h : readsSucceed R ps t = false) :
    ∃ pre p post e, ps = pre ++ p :: post ∧ readsSucceed R pre t = true ∧
      (R p (afterReads R pre t)).2 = some e := by
  induction ps generalizing t with
  | nil => simp [readsSucceed] at h
  | cons p ps ih =>
    rcases hr : (R p t).2 with _ | e
    · have h2 : readsSucceed R ps (R p t).1 = false := by
        simpa [readsSucceed, hr] using h
      obtain ⟨pre, q, post, e, hps, hpre, hq⟩ := ih _ h2
      refine ⟨p :: pre, q, post, e, by simp [hps], ?_, ?_⟩
      · simp [readsSucceed, hr, hpre]
      · simpa [afterReads_cons] using hq
    · exact ⟨[], p, ps, e, rfl, rfl, hr⟩

theorem loop_first_failure {T : Type} (R : Reader T) (pre post : List String) (p : String)
    (t : T) (e : GoError) (hpre : readsSucceed R pre t = true)
    (hp : (R p (afterReads R pre t)).2 = some e) :
    LoadFromFile.loop R (pre ++ p :: post) t =
      ⟨(R p (afterReads R pre t)).1, some (errorfConfigError e),
        readCalls R pre t ++ [(p, afterReads R pre t)]⟩ := by
  rw [loop_append_of_succeed R pre _ t hpre, loop_cons_err R p post _ e hp]

theorem loop_append_of_err {T : Type} (R : Reader T) (ps qs : List String) (t : T)
    (e : GoError) (h : (LoadFromFile.loop R ps t).err = some e) :
    LoadFromFile.loop R (ps ++ qs) t = LoadFromFile.loop R ps t := by
  have hf : readsSucceed R ps t = false := by
    rcases hs : readsSucceed R ps t with _ | _
    · rfl
    · rw [(loop_err_eq_none_iff R ps t).2 hs] at h; cases h
  obtain ⟨pre, p, post, e', hps, hpre, hp⟩ := exists_first_failure R ps t hf
  subst hps
  rw [List.append_assoc, List.cons_append, loop_first_failure R pre _ p t e' hpre hp,
    loop_first_failure R pre _ p t e' hpre hp]

theorem LoadFromFile_of_ne_nil {T : Type} (R : Reader T) (t : T) (ps : List String)
    (h : ps ≠ []) : LoadFromFile R t ps = LoadFromFile.loop R ps t := by
  cases ps with
  | nil => exact absurd rfl h
  | cons p ps => simp [LoadFromFile]

/-! ## Claims about the guards -/

/-- C1: with an empty path list `LoadFromFile` returns the error whose message
is "config error: file path not provided", calls the file reader zero times
and leaves the target as it was, for every target and every file reader. -/
theorem LoadFromFile_no_paths {T : Type} (ReadConfig : Reader T) (config : T) :
    let r := LoadFromFile ReadConfig config []
    (∃ e, r.err = some e ∧ e.Error = "config error: file path not provided") ∧
      r.calls = [] ∧ r.config = config := by
  exact ⟨⟨_, rfl, rfl⟩, rfl, rfl⟩

/-- C2: with an empty payload `LoadFromString` returns the error whose message
is "config error: config is empty", calls no decoder and leaves the target as
it was, for every target and every format tag, known or not. -/
theorem LoadFromString_empty_payload {T : Type} (json toml yaml : Decoder T) (config : T)
    (format : String) :
    let r := LoadFromString json toml yaml config "" format
    (∃ e, r.err = some e ∧ e.Error = "config error: config is empty") ∧
      r.calls = [] ∧ r.config = config := by
  rw [LoadFromString_of_empty]
  exact ⟨⟨_, rfl, rfl⟩, rfl, rfl⟩

/-- C3: with a non-empty payload and a format tag that is none of the strings
"json", "toml", "yaml", `LoadFromString` returns the error whose message is
"config string parsing error: unknown/unsupported config format " followed by
the tag between single quotes, calls no decoder and leaves the target as it
was. -/
theorem LoadFromString_unknown_format {T : Type} (json toml yaml : Decoder T) (config : T)
    (data format : String) (hdata : data ≠ "")
    (hformat : format ∉ ["json", "toml", "yaml"]) :
    let r := LoadFromString json toml yaml config data format
    (∃ e, r.err = some e ∧
        e.Error =
          "config string parsing error: unknown/unsupported config format '" ++ format ++ "'") ∧
      r.calls = [] ∧ r.config = config := by
  simp only [List.mem_cons, List.mem_singleton, List.not_mem_nil, or_false, not_or] at hformat
  rw [LoadFromString_unknown json toml yaml config data format hdata
    hformat.1 hformat.2.1 hformat.2.2]
  exact ⟨⟨_, rfl, rfl⟩, rfl, rfl⟩

/-- C3 at the tag "yml" on a target of one number, with decoders that would
overwrite it. -/
theorem LoadFromString_unknown_format_witness :
    "x" ≠ "" ∧ "yml" ∉ ["json", "toml", "yaml"] ∧
      (LoadFromString (fun _ _ => (1, none)) (fun _ _ => (2, none)) (fun _ _ => (3, none))
        (0 : Nat) "x" "yml").config = 0 :=
  ⟨by decide, by decide,
    (LoadFromString_unknown_format _ _ _ (0 : Nat) "x" "yml" (by decide) (by decide)).2.2⟩

/-! ## Claims about LoadFromFile -/

/-- C4: on a non-empty path list `LoadFromFile` applies the reader to the
paths in list order on the same target, each read from the target the read
before left.  If every read succeeds the target is the one the reads leave.
If `p` is the first path whose read fails (the reads of `pre` before it
succeed), an error is returned, the reader was invoked on `pre` and `p` and on
no path after `p`, and the target is what the reads of `pre` and then the
failing read of `p` left; when that failing read leaves the target alone, the
target is the one the reads of `pre` left. -/
theorem LoadFromFile_sequential {T : Type} (ReadConfig : Reader T) (config : T)
    (filePaths : List String) (hne : filePaths ≠ []) :
    let r := LoadFromFile ReadConfig config filePaths
    (readsSucceed ReadConfig filePaths config = true →
      r.err = none ∧ r.config = afterReads ReadConfig filePaths config ∧
        r.calls = readCalls ReadConfig filePaths config) ∧
    (∀ (pre : List String) (p : String) (post : List String) (e : GoError),
      filePaths = pre ++ p :: post →
      readsSucceed ReadConfig pre config = true →
      (ReadConfig p (afterReads ReadConfig pre config)).2 = some e →
        r.err ≠ none ∧
        r.config = (ReadConfig p (afterReads ReadConfig pre config)).1 ∧
        r.calls = readCalls ReadConfig pre config ++ [(p, afterReads ReadConfig pre config)] ∧
        r.calls.map Prod.fst = pre ++ [p] ∧
        ((ReadConfig p (afterReads ReadConfig pre config)).1 = afterReads ReadConfig pre config →
          r.config = afterReads ReadConfig pre config)) := by
  intro r
  have hr : r = LoadFromFile.loop ReadConfig filePaths config :=
    LoadFromFile_of_ne_nil ReadConfig config filePaths hne
  refine ⟨?_, ?_⟩
  · intro h
    rw [hr, loop_of_succeed ReadConfig filePaths config h]
    exact ⟨rfl, rfl, rfl⟩
  · intro pre p post e hps hpre hp
    subst hps
    rw [hr, loop_first_failure ReadConfig pre post p config e hpre hp]
    refine ⟨by simp, rfl, rfl, ?_, fun h => h⟩
    simp [readCalls_map_fst]

/-- C4 on the test "multiple files, some exist, some dont": the fields of the
valid file stay in the target, the call fails, and the reader saw the two
paths in order. -/
theorem LoadFromFile_sequential_witness :
    ["config_test_valid.env", "config_test_file_does-not-exist.env"] ≠ [] ∧
    (LoadFromFile testReadConfig ⟨"", 0⟩
        ["config_test_valid.env", "config_test_file_does-not-exist.env"]).err ≠ none ∧
    (LoadFromFile testReadConfig ⟨"", 0⟩
        ["config_test_valid.env", "config_test_file_does-not-exist.env"]).config =
      ⟨"testing-service", 9000⟩ :=
  have h := (LoadFromFile_sequential testReadConfig ⟨"", 0⟩
    ["config_test_valid.env", "config_test_file_does-not-exist.env"] (by decide)).2
    ["config_test_valid.env"] "config_test_file_does-not-exist.env" []
    (GoError.errorString "open config_test_file_does-not-exist.env: no such file or directory")
    rfl (by decide) (by decide)
  ⟨by decide, h.1, h.2.2.2.2 (by decide)⟩

/-- C5: on a non-empty path list `LoadFromFile` returns `nil` exactly when the
read of every path, one after the other, succeeds.  When it returns an error
there is a first failing path, and for the first failing path `p` with reader
error `e` the returned error has the message "config error: " followed by the
message of `e`, and unwrapping it gives `e`. -/
theorem LoadFromFile_error {T : Type} (ReadConfig : Reader T) (config : T)
    (filePaths : List String) (hne : filePaths ≠ []) :
    let r := LoadFromFile ReadConfig config filePaths
    (r.err = none ↔ readsSucceed ReadConfig filePaths config = true) ∧
    (r.err ≠ none →
      ∃ (pre : List String) (p : String) (post : List String) (e : GoError),
        filePaths = pre ++ p :: post ∧ readsSucceed ReadConfig pre config = true ∧
        (ReadConfig p (afterReads ReadConfig pre config)).2 = some e) ∧
    (∀ (pre : List String) (p : String) (post : List String) (e : GoError),
      filePaths = pre ++ p :: post →
      readsSucceed ReadConfig pre config = true →
      (ReadConfig p (afterReads ReadConfig pre config)).2 = some e →
        ∃ err, r.err = some err ∧ err.Error = "config error: " ++ e.Error ∧
          err.Unwrap = some e) := by
  intro r
  have hr : r = LoadFromFile.loop ReadConfig filePaths config :=
    LoadFromFile_of_ne_nil ReadConfig config filePaths hne
  refine ⟨?_, ?_, ?_⟩
  · rw [hr]; exact loop_err_eq_none_iff ReadConfig filePaths config
  · intro h
    apply exists_first_failure
    rcases hs : readsSucceed ReadConfig filePaths config with _ | _
    · rfl
    · rw [hr] at h
      exact absurd ((loop_err_eq_none_iff ReadConfig filePaths config).2 hs) h
  · intro pre p post e hps hpre hp
    subst hps
    rw [hr, loop_first_failure ReadConfig pre post p config e hpre hp]
    exact ⟨_, rfl, rfl, rfl⟩

/-- C5 on the test "file not exists": the message of the reader comes back
behind "config error: ". -/
theorem LoadFromFile_error_witness :
    ["config_test_file_does-not-exist.env"] ≠ [] ∧
    ∃ err,
      (LoadFromFile testReadConfig ⟨"", 0⟩ ["config_test_file_does-not-exist.env"]).err =
        some err ∧
      err.Error =
        "config error: " ++
          (GoError.errorString
            "open config_test_file_does-not-exist.env: no such file or directory").Error ∧
      err.Unwrap =
        some (GoError.errorString
          "open config_test_file_does-not-exist.env: no such file or directory") :=
  ⟨by decide,
    (LoadFromFile_error testReadConfig ⟨"", 0⟩ ["config_test_file_does-not-exist.env"]
      (by decide)).2.2 [] "config_test_file_does-not-exist.env" [] _ rfl rfl (by decide)⟩

/-- C10: for non-empty path lists `ps` and `qs`, if `LoadFromFile` on `ps`
returns `nil` and leaves the target `t'`, then on `ps ++ qs` it returns the
error, or `nil`, and leaves the target that `LoadFromFile` on `qs` from `t'`
does, after the invocations of both; and if on `ps` it returns an error, then
on `ps ++ qs` it returns that error, leaves the same target and makes the same
reader invocations, so it reads no path of `qs`. -/
theorem LoadFromFile_append {T : Type} (ReadConfig : Reader T) (config : T)
    (ps qs : List String) (hps : ps ≠ []) (hqs : qs ≠ []) :
    ((LoadFromFile ReadConfig config ps).err = none →
      (LoadFromFile ReadConfig config (ps ++ qs)).err =
          (LoadFromFile ReadConfig (LoadFromFile ReadConfig config ps).config qs).err ∧
        (LoadFromFile ReadConfig config (ps ++ qs)).config =
          (LoadFromFile ReadConfig (LoadFromFile ReadConfig config ps).config qs).config ∧
        (LoadFromFile ReadConfig config (ps ++ qs)).calls =
          (LoadFromFile ReadConfig config ps).calls ++
            (LoadFromFile ReadConfig (LoadFromFile ReadConfig config ps).config qs).calls) ∧
    (∀ e, (LoadFromFile ReadConfig config ps).err = some e →
      (LoadFromFile ReadConfig config (ps ++ qs)).err = some e ∧
        (LoadFromFile ReadConfig config (ps ++ qs)).config =
          (LoadFromFile ReadConfig config ps).config ∧
        (LoadFromFile ReadConfig config (ps ++ qs)).calls =
          (LoadFromFile ReadConfig config ps).calls) := by
  have hpq : ps ++ qs ≠ [] := by simp [hps]
  rw [LoadFromFile_of_ne_nil ReadConfig config _ hpq, LoadFromFile_of_ne_nil ReadConfig config _ hps,
    LoadFromFile_of_ne_nil ReadConfig _ _ hqs]
  refine ⟨?_, ?_⟩
  · intro h
    have hs := (loop_err_eq_none_iff ReadConfig ps config).1 h
    rw [loop_append_of_succeed ReadConfig ps qs config hs, loop_of_succeed ReadConfig ps config hs]
    exact ⟨rfl, rfl, rfl⟩
  · intro e h
    rw [loop_append_of_err ReadConfig ps qs config e h]
    exact ⟨h, rfl, rfl⟩

/-- C10 on the files of the test: the valid file twice, and the missing file
before the valid one. -/
theorem LoadFromFile_append_witness :
    ["config_test_valid.env"] ≠ [] ∧ ["missing.env"] ≠ [] ∧
    (LoadFromFile testReadConfig ⟨"", 0⟩ (["config_test_valid.env"] ++ ["missing.env"])).config =
      (LoadFromFile testReadConfig
        (LoadFromFile testReadConfig ⟨"", 0⟩ ["config_test_valid.env"]).config
        ["missing.env"]).config ∧
    (LoadFromFile testReadConfig ⟨"", 0⟩ (["missing.env"] ++ ["config_test_valid.env"])).calls =
      (LoadFromFile testReadConfig ⟨"", 0⟩ ["missing.env"]).calls :=
  ⟨by decide, by decide,
    ((LoadFromFile_append testReadConfig ⟨"", 0⟩ ["config_test_valid.env"] ["missing.env"]
      (by decide) (by decide)).1 (by decide)).2.1,
    ((LoadFromFile_append testReadConfig ⟨"", 0⟩ ["missing.env"] ["config_test_valid.env"]
      (by decide) (by decide)).2 _ rfl).2.2⟩

/-! ## Claims about LoadFromString -/

/-- C6: with a non-empty payload and a format tag among "json", "toml",
"yaml", `LoadFromString` makes one decoder invocation, of the decoder the tag
names, on the payload as given and the target as given; the target after the
call is the one that decoder leaves; it returns `nil` exactly when that
decoder does; and when that decoder fails with an error of message `m` it
returns an error of message "config string parsing error: " followed by `m`.
Nothing in the result depends on the other two decoders. -/
theorem LoadFromString_dispatch {T : Type} (json toml yaml : Decoder T) (config : T)
    (data format : String) (lib : Lib) (decode : Decoder T) (hdata : data ≠ "")
    (hsel : (format = "json" ∧ lib = Lib.jsonUnmarshal ∧ decode = json) ∨
      (format = "toml" ∧ lib = Lib.tomlDecode ∧ decode = toml) ∨
      (format = "yaml" ∧ lib = Lib.yamlUnmarshal ∧ decode = yaml)) :
    let r := LoadFromString json toml yaml config data format
    r.calls = [⟨lib, data, config⟩] ∧
      r.config = (decode data config).1 ∧
      (r.err = none ↔ (decode data config).2 = none) ∧
      (∀ e, (decode data config).2 = some e →
        ∃ err, r.err = some err ∧ err.Error = "config string parsing error: " ++ e.Error) := by
  intro r
  have hr : r = LoadFromString.finish lib data config (decode data config) := by
    rcases hsel with ⟨hf, hl, hd⟩ | ⟨hf, hl, hd⟩ | ⟨hf, hl, hd⟩ <;> subst hf hl hd
    · exact LoadFromString_json _ _ _ config data hdata
    · exact LoadFromString_toml _ _ _ config data hdata
    · exact LoadFromString_yaml _ _ _ config data hdata
  rw [hr]
  refine ⟨finish_calls _ _ _ _, finish_config _ _ _ _, ?_, ?_⟩
  · rw [finish_err]; simp
  · intro e he
    rw [finish_err, he]
    exact ⟨_, rfl, rfl⟩

/-- C6 on the YAML payload of the test, with JSON and TOML decoders that
would fail: only the YAML decoder is called, and the call succeeds. -/
theorem LoadFromString_dispatch_witness :
    stringYAML ≠ "" ∧
    (LoadFromString (fun _ c => (c, some (GoError.errorString "json")))
        (fun _ c => (c, some (GoError.errorString "toml"))) testYamlUnmarshal
        ⟨0, 0, "", false, ⟨0, ""⟩⟩ stringYAML "yaml").calls =
      [⟨Lib.yamlUnmarshal, stringYAML, ⟨0, 0, "", false, ⟨0, ""⟩⟩⟩] ∧
    (LoadFromString (fun _ c => (c, some (GoError.errorString "json")))
        (fun _ c => (c, some (GoError.errorString "toml"))) testYamlUnmarshal
        ⟨0, 0, "", false, ⟨0, ""⟩⟩ stringYAML "yaml").err = none :=
  have h := LoadFromString_dispatch (fun _ c => (c, some (GoError.errorString "json")))
    (fun _ c => (c, some (GoError.errorString "toml"))) testYamlUnmarshal
    ⟨0, 0, "", false, ⟨0, ""⟩⟩ stringYAML "yaml" Lib.yamlUnmarshal testYamlUnmarshal
    (by decide) (Or.inr (Or.inr ⟨rfl, rfl, rfl⟩))
  ⟨by decide, h.1, h.2.2.1.2 (by decide)⟩

/-- C9: with a non-empty payload and a format tag among "json", "toml",
"yaml", when the decoder that the tag names populates the fields present in a
payload and leaves the others (`FieldFrame`), a successful `LoadFromString`
leaves every field present in the payload with the value of the payload and
every field absent from it with the value it had before the call. -/
theorem LoadFromString_fields {T K V : Type} (json toml yaml : Decoder T)
    (get : T → K → V) (fieldsOf : String → K → Option V) (config : T)
    (data format : String) (decode : Decoder T) (hdata : data ≠ "")
    (hsel : (format = "json" ∧ decode = json) ∨ (format = "toml" ∧ decode = toml) ∨
      (format = "yaml" ∧ decode = yaml))
    (hframe : FieldFrame get fieldsOf decode) :
    let r := LoadFromString json toml yaml config data format
    r.err = none →
      ∀ k, (∀ v, fieldsOf data k = some v → get r.config k = v) ∧
        (fieldsOf data k = none → get r.config k = get config k) := by
  intro r
  have hr : ∃ lib, r = LoadFromString.finish lib data config (decode data config) := by
    rcases hsel with ⟨hf, hd⟩ | ⟨hf, hd⟩ | ⟨hf, hd⟩ <;> subst hf hd
    · exact ⟨_, LoadFromString_json _ _ _ config data hdata⟩
    · exact ⟨_, LoadFromString_toml _ _ _ config data hdata⟩
    · exact ⟨_, LoadFromString_yaml _ _ _ config data hdata⟩
  obtain ⟨lib, hr⟩ := hr
  rw [hr, finish_err, finish_config]
  intro herr k
  have hnone : (decode data config).2 = none := by simpa using herr
  have hk := hframe data config hnone k
  refine ⟨fun v hv => ?_, fun hv => ?_⟩
  · rw [hk, hv]; rfl
  · rw [hk, hv]; rfl

theorem testYamlUnmarshal_frame :
    FieldFrame stringData.get yamlFieldsOf testYamlUnmarshal := by
  intro data config h k
  by_cases hd : data = stringYAML
  · cases k <;> simp [testYamlUnmarshal, yamlFieldsOf, stringData.get, hd]
  · simp [testYamlUnmarshal, hd] at h

/-- C9 on the test "yaml string" from a target that already holds a user id
and a title: the payload has neither key, so both stay, and `id` is set. -/
theorem LoadFromString_fields_witness :
    stringYAML ≠ "" ∧
    (LoadFromString testYamlUnmarshal testYamlUnmarshal testYamlUnmarshal
        ⟨7, 0, "kept", true, ⟨3, ""⟩⟩ stringYAML "yaml").config.UserID = 7 ∧
    (LoadFromString testYamlUnmarshal testYamlUnmarshal testYamlUnmarshal
        ⟨7, 0, "kept", true, ⟨3, ""⟩⟩ stringYAML "yaml").config.Title = "kept" ∧
    (LoadFromString testYamlUnmarshal testYamlUnmarshal testYamlUnmarshal
        ⟨7, 0, "kept", true, ⟨3, ""⟩⟩ stringYAML "yaml").config.ID = 1 :=
  have h := LoadFromString_fields testYamlUnmarshal testYamlUnmarshal testYamlUnmarshal
    stringData.get yamlFieldsOf ⟨7, 0, "kept", true, ⟨3, ""⟩⟩ stringYAML "yaml"
    testYamlUnmarshal (by decide) (Or.inr (Or.inr ⟨rfl, rfl⟩)) testYamlUnmarshal_frame
    (by decide)
  ⟨by decide, Value.int.inj ((h Key.userId).2 (by decide)),
    Value.str.inj ((h Key.title).2 (by decide)),
    Value.int.inj ((h Key.id).1 (Value.int 1) (by decide))⟩

/-- With a value whose encoding is the empty string the guard on the payload
answers, whatever the format and the decoders: there is no round trip. -/
theorem not_RoundTrip_of_encode_eq_empty {T : Type} (json toml yaml : Decoder T)
    (encode : T → String) (zero v : T) (format : String) (h : encode v = "") :
    ¬ RoundTrip json toml yaml encode zero v format := by
  intro hrt
  have herr := hrt.1
  rw [h, LoadFromString_of_empty] at herr
  cases herr

theorem decodeNoFields_roundTrip (lib : Lib) :
    LibraryRoundTrip (encodeNoFields lib) (decodeNoFields lib) ⟨⟩ := by
  intro v
  cases lib <;> cases v <;> decide

theorem decodeCompleted_roundTrip (lib : Lib) :
    LibraryRoundTrip (encodeCompleted lib) (decodeCompleted lib) ⟨false⟩ := by
  intro v
  rcases v with ⟨_ | _⟩ <;> cases lib <;> decide

/-- C8, as stated, fails: the TOML encoding of a target without fields is the
empty document.  The TOML encoder and decoder round trip on it, as the
specification expects of the libraries, and the loader refuses it as an empty
payload. -/
theorem RoundTrip_fails_on_empty_encoding :
    LibraryRoundTrip (encodeNoFields Lib.tomlDecode) (decodeNoFields Lib.tomlDecode) ⟨⟩ ∧
    (LoadFromString (decodeNoFields Lib.jsonUnmarshal) (decodeNoFields Lib.tomlDecode)
        (decodeNoFields Lib.yamlUnmarshal) ⟨⟩ (encodeNoFields Lib.tomlDecode ⟨⟩) "toml").err =
      some (GoError.errorString "config error: config is empty") ∧
    ¬ RoundTrip (decodeNoFields Lib.jsonUnmarshal) (decodeNoFields Lib.tomlDecode)
        (decodeNoFields Lib.yamlUnmarshal) (encodeNoFields Lib.tomlDecode) ⟨⟩ ⟨⟩ "toml" := by
  refine ⟨decodeNoFields_roundTrip Lib.tomlDecode, by decide, ?_⟩
  intro h
  exact absurd h.1 (by decide)

/-- C8, amended: for a format tag among "json", "toml", "yaml", whose encoder
and decoder round trip as the specification expects of the libraries
(`LibraryRoundTrip`), and every value `v` whose encoding is not the empty
string, `LoadFromString` on the encoding of `v`, the tag and a fresh target
returns `nil` and leaves the target equal to `v`. -/
theorem LoadFromString_roundtrip {T : Type} (json toml yaml : Decoder T)
    (encode : T → String) (zero v : T) (format : String) (decode : Decoder T)
    (hsel : (format = "json" ∧ decode = json) ∨ (format = "toml" ∧ decode = toml) ∨
      (format = "yaml" ∧ decode = yaml))
    (hlib : LibraryRoundTrip encode decode zero)
    (hne : encode v ≠ "") :
    RoundTrip json toml yaml encode zero v format := by
  have hr : ∃ lib, LoadFromString json toml yaml zero (encode v) format =
      LoadFromString.finish lib (encode v) zero (decode (encode v) zero) := by
    rcases hsel with ⟨hf, hd⟩ | ⟨hf, hd⟩ | ⟨hf, hd⟩ <;> subst hf hd
    · exact ⟨_, LoadFromString_json _ _ _ zero _ hne⟩
    · exact ⟨_, LoadFromString_toml _ _ _ zero _ hne⟩
    · exact ⟨_, LoadFromString_yaml _ _ _ zero _ hne⟩
  obtain ⟨lib, hr⟩ := hr
  unfold RoundTrip
  rw [hr, finish_err, finish_config, hlib v]
  exact ⟨rfl, rfl⟩

/-- C8, amended, on the value `Completed = true`, which differs from the fresh
target, in each of the three formats: the call returns `nil` and the target
holds `true`. -/
theorem LoadFromString_roundtrip_witness :
    (encodeCompleted Lib.jsonUnmarshal ⟨true⟩ ≠ "" ∧
      encodeCompleted Lib.tomlDecode ⟨true⟩ ≠ "" ∧
      encodeCompleted Lib.yamlUnmarshal ⟨true⟩ ≠ "") ∧
    RoundTrip (decodeCompleted Lib.jsonUnmarshal) (decodeCompleted Lib.tomlDecode)
      (decodeCompleted Lib.yamlUnmarshal) (encodeCompleted Lib.jsonUnmarshal)
      ⟨false⟩ ⟨true⟩ "json" ∧
    RoundTrip (decodeCompleted Lib.jsonUnmarshal) (decodeCompleted Lib.tomlDecode)
      (decodeCompleted Lib.yamlUnmarshal) (encodeCompleted Lib.tomlDecode)
      ⟨false⟩ ⟨true⟩ "toml" ∧
    (LoadFromString (decodeCompleted Lib.jsonUnmarshal) (decodeCompleted Lib.tomlDecode)
        (decodeCompleted Lib.yamlUnmarshal) ⟨false⟩ "completed: true\n" "yaml").config =
      ⟨true⟩ :=
  ⟨⟨by decide, by decide, by decide⟩,
    LoadFromString_roundtrip (decodeCompleted Lib.jsonUnmarshal)
      (decodeCompleted Lib.tomlDecode) (decodeCompleted Lib.yamlUnmarshal)
      (encodeCompleted Lib.jsonUnmarshal) ⟨false⟩ ⟨true⟩ "json"
      (decodeCompleted Lib.jsonUnmarshal) (Or.inl ⟨rfl, rfl⟩)
      (decodeCompleted_roundTrip Lib.jsonUnmarshal) (by decide),
    LoadFromString_roundtrip (decodeCompleted Lib.jsonUnmarshal)
      (decodeCompleted Lib.tomlDecode) (decodeCompleted Lib.yamlUnmarshal)
      (encodeCompleted Lib.tomlDecode) ⟨false⟩ ⟨true⟩ "toml"
      (decodeCompleted Lib.tomlDecode) (Or.inr (Or.inl ⟨rfl, rfl⟩))
      (decodeCompleted_roundTrip Lib.tomlDecode) (by decide),
    (LoadFromString_roundtrip (decodeCompleted Lib.jsonUnmarshal)
      (decodeCompleted Lib.tomlDecode) (decodeCompleted Lib.yamlUnmarshal)
      (encodeCompleted Lib.yamlUnmarshal) ⟨false⟩ ⟨true⟩ "yaml"
      (decodeCompleted Lib.yamlUnmarshal) (Or.inr (Or.inr ⟨rfl, rfl⟩))
      (decodeCompleted_roundTrip Lib.yamlUnmarshal) (by decide)).2⟩

/-! ## Claims about LoadFromCLIFlagsOrENV -/

/-- C7: `LoadFromCLIFlagsOrENV` invokes the argument parser once, on the
target as given, and returns the result of the parser as it is: `nil` when
the parser returns `nil`, the error of the parser itself otherwise; the
target after the call is the one the parser leaves. -/
theorem LoadFromCLIFlagsOrENV_passthrough {T : Type} (Parse : T → T × Option GoError)
    (config : T) :
    let r := LoadFromCLIFlagsOrENV Parse config
    r.calls = [config] ∧ r.err = (Parse config).2 ∧ r.config = (Parse config).1 := by
  exact ⟨rfl, rfl, rfl⟩

end Config
